import Mathlib

/-!
Verification of the authorization gatekeeper (`server/auth/gatekeeper.go`).

The Go source is shallowly embedded: pure functions become Lean functions,
the casbin enforcer's grouping-policy store becomes an explicit state that is
threaded through the functions that mutate it, and external collaborators
(the SSO interface, the service-account/secret listers, the JSON serializer,
the boolean-expression evaluator, the kubeconfig-based client builder and the
environment variables) become oracle fields of an `Env` record, so that every
control-flow decision of the Go code is reproduced while the external calls
stay abstract.  Go errors become `Except`/`Option` values; gRPC status errors
keep their code and message.
-/

namespace ArgoAuth

/-- `types.Claims`: subject, email, groups and the mutable service-account
name written back by the RBAC selector. -/
structure Claims where
  subject : String
  email : String
  groups : List String
  serviceAccountName : String
  deriving DecidableEq, Repr

/-- `corev1.ServiceAccount` restricted to the fields the gatekeeper reads:
name, namespace, annotations and the names of the bound secrets. -/
structure ServiceAccount where
  name : String
  saNamespace : String
  annotations : List (String × String)
  secrets : List String
  deriving DecidableEq, Repr

/-- `corev1.Secret` restricted to its string data map. -/
structure Secret where
  data : List (String × String)
  deriving DecidableEq, Repr

/-- An opaque `servertypes.Clients` bundle; `restConfig` stands for the REST
credential the claim-set derivation reads. -/
structure Clients where
  id : String
  restConfig : String
  deriving DecidableEq, Repr

/-- The auth-mode enum (`Client`, `Server`, `SSO`). -/
inductive Mode
  | Client
  | Server
  | SSO
  deriving DecidableEq, Repr

/-- `common.AnnotationKeyRBACRule`. -/
def AnnotationKeyRBACRule : String := "workflows.argoproj.io/rbac-rule"

/-- `common.AnnotationKeyRBACRulePrecedence`. -/
def AnnotationKeyRBACRulePrecedence : String := "workflows.argoproj.io/rbac-rule-precedence"

/-- The sign/digit split of Go `strconv.Atoi`'s input: whether the value is
negated, and the characters after the optional single sign. -/
def atoiDigits (s : String) : Bool × List Char :=
  match s.data with
  | '+' :: rest => (false, rest)
  | '-' :: rest => (true, rest)
  | cs => (false, cs)

/-- The syntactic-validity test of Go `strconv.Atoi`: an optional single
sign followed by at least one ASCII digit. -/
def atoiParses (s : String) : Bool :=
  !(atoiDigits s).2.isEmpty && (atoiDigits s).2.all Char.isDigit

/-- Go's `strconv.Atoi` with the error ignored, as the source does: a
syntactically valid input parses to its value clamped to the 64-bit signed
range (`strconv` returns the clamped value together with `ErrRange` on
overflow); every other string yields 0. -/
def goAtoi (s : String) : Int :=
  if atoiParses s then
    let n : Nat := (atoiDigits s).2.foldl (fun acc c => acc * 10 + (c.toNat - 48)) 0
    let v : Int := if (atoiDigits s).1 then -(n : Int) else (n : Int)
    max (-(2 ^ 63)) (min (2 ^ 63 - 1) v)
  else 0

/-- `precedence`: the precedence annotation parsed with `strconv.Atoi`,
errors ignored; a missing annotation reads as the empty string. -/
def precedence (serviceAccount : ServiceAccount) : Int :=
  goAtoi ((serviceAccount.annotations.lookup AnnotationKeyRBACRulePrecedence).getD "")

/-- External collaborators of the gatekeeper, kept abstract as oracles:
`getenv` is `os.Getenv`; `ssoAuthorize`/`isRBACEnabled` are `sso.Interface`;
`listServiceAccounts`/`getSecret` are the cache listers (the secret lookup
takes namespace then name); `jsonify` is `jsonutil.Jsonify`; `evalBool` is
`argoexpr.EvalBool` on (rule, serialized claims); `newClientsFor` is the
`kubeconfig.GetRestConfig` + `servertypes.NewProfile` chain; `claimSetFor` is
`serviceaccount.ClaimSetFor` with its error ignored, so a `none` result
stands for a nil claim set. -/
structure Env where
  getenv : String → String
  ssoAuthorize : String → Except String Claims
  isRBACEnabled : Bool
  listServiceAccounts : String → Except String (List ServiceAccount)
  getSecret : String → String → Except String Secret
  jsonify : Claims → Except String String
  evalBool : String → String → Except String Bool
  newClientsFor : String → Except String Clients
  claimSetFor : String → Option Claims

/-- The casbin enforcer: the grouping-policy edge store plus oracles for the
outcomes of the engine calls (`addErr`/`removeErr` give the error, if any, of
`AddGroupingPolicy`/`RemoveGroupingPolicy`; `enforceRes` is `Enforce`). -/
structure Enforcer where
  edges : List (String × String)
  addErr : String → String → Option String
  removeErr : String → String → Option String
  enforceRes : String → String → String → Except String Bool

/-- casbin `AddGroupingPolicy`: on success the edge is added as to a set
(idempotently); on failure the store is unchanged. -/
def Enforcer.addGroupingPolicy (e : Enforcer) (sub group : String) : Except String Enforcer :=
  match e.addErr sub group with
  | some msg => .error msg
  | none =>
    if (sub, group) ∈ e.edges then .ok e
    else .ok { e with edges := e.edges ++ [(sub, group)] }

/-- casbin `RemoveGroupingPolicy`: on success the edge is removed as from a
set; on failure the store is unchanged. -/
def Enforcer.removeGroupingPolicy (e : Enforcer) (sub group : String) : Except String Enforcer :=
  match e.removeErr sub group with
  | some msg => .error msg
  | none => .ok { e with edges := e.edges.filter (fun p => p ≠ (sub, group)) }

/-- The `group:<cluster>:<g>` encoding of a transient group edge. -/
def groupStr (cluster g : String) : String :=
  s!"group:{cluster}:{g}"

/-- The loop body of `gatekeeper.addPolicies`: one `AddGroupingPolicy` per
claim group, stopping at the first engine error; returns the error message,
if any, together with the enforcer state reached. -/
def addPoliciesLoop (sub cluster : String) : List String → Enforcer → Option String × Enforcer
  | [], e => (none, e)
  | g :: gs, e =>
    let group := groupStr cluster g
    match e.addGroupingPolicy sub group with
    | .error _ => (some s!"failed to add policy for group \"{group}\"", e)
    | .ok e2 => addPoliciesLoop sub cluster gs e2

/-- `gatekeeper.addPolicies`. -/
def addPolicies (e : Enforcer) (claims : Claims) (cluster sub : String) :
    Option String × Enforcer :=
  addPoliciesLoop sub cluster claims.groups e

/-- The loop body of `gatekeeper.removePolicies`: one `RemoveGroupingPolicy`
per claim group, stopping at the first engine error. -/
def removePoliciesLoop (sub cluster : String) : List String → Enforcer → Option String × Enforcer
  | [], e => (none, e)
  | g :: gs, e =>
    let group := groupStr cluster g
    match e.removeGroupingPolicy sub group with
    | .error _ => (some s!"failed to remove policy for group \"{group}\"", e)
    | .ok e2 => removePoliciesLoop sub cluster gs e2

/-- `gatekeeper.removePolicies`. -/
def removePolicies (e : Enforcer) (claims : Claims) (cluster sub : String) :
    Option String × Enforcer :=
  removePoliciesLoop sub cluster claims.groups e

/-- Whether a service account carries the RBAC rule annotation. -/
def hasRBACRule (sa : ServiceAccount) : Bool :=
  (sa.annotations.lookup AnnotationKeyRBACRule).isSome

/-- The comparison handed to `sort.Slice` in `getServiceAccount`, as a
total preorder: descending precedence. -/
def precOrder (a b : ServiceAccount) : Prop :=
  precedence b ≤ precedence a

instance : DecidableRel precOrder :=
  fun a b => inferInstanceAs (Decidable (precedence b ≤ precedence a))

instance : IsTotal ServiceAccount precOrder :=
  ⟨fun a b => le_total (precedence b) (precedence a)⟩

instance : IsTrans ServiceAccount precOrder :=
  ⟨fun _ _ _ h1 h2 => le_trans h2 h1⟩

/-- The rule annotation of an account, read as the Go map read does: the
empty string when absent. -/
def ruleOf (sa : ServiceAccount) : String :=
  (sa.annotations.lookup AnnotationKeyRBACRule).getD ""

/-- The matching loop of `gatekeeper.getServiceAccount`: serialize the claims,
evaluate each rule in order, return the first account whose rule holds. -/
def evalRuleLoop (env : Env) (claims : Claims) : List ServiceAccount → Except String ServiceAccount
  | [] => .error "no service account rule matches"
  | serviceAccount :: rest =>
    let rule := ruleOf serviceAccount
    match env.jsonify claims with
    | .error e => .error s!"failed to marshall claims: {e}"
    | .ok v =>
      match env.evalBool rule v with
      | .error e => .error s!"failed to evaluate rule: {e}"
      | .ok true => .ok serviceAccount
      | .ok false => evalRuleLoop env claims rest

/-- `gatekeeper.getServiceAccount`: list the accounts of the namespace, keep
the rule-bearing ones, sort by precedence descending, return the first whose
rule evaluates true on the serialized claims.  The Go `sort.Slice` is
unstable, so ties in precedence have no specified order; the embedding fixes
the stable order of insertion sort. -/
def getServiceAccount (env : Env) (claims : Claims) (ns : String) :
    Except String ServiceAccount :=
  match env.listServiceAccounts ns with
  | .error err => .error s!"failed to list SSO RBAC service accounts: {err}"
  | .ok list =>
    let serviceAccounts := list.filter hasRBACRule
    evalRuleLoop env claims (List.insertionSort precOrder serviceAccounts)

/-- The gatekeeper's immutable configuration.  `getMode` is the `Modes`
matching function — modelled from the spec: `Modes.GetMode` lives in
`modes.go`, outside the embedded file; per the spec it classifies a token and
accepts it only when the classified mode is enabled, so the oracle returns
`some mode` exactly when the token is recognized by an enabled mode.
`primary` and `profiles` model `servertypes.Profiles` — modelled from the
spec: the primary cluster is always resolvable, and `Find` on the profile map
fails distinctly on an unknown cluster. -/
structure GatekeeperCfg where
  getMode : String → Option Mode
  primary : Clients
  profiles : List (String × Clients)
  primaryCluster : String
  serverNamespace : String
  ssoNamespace : String
  namespaced : Bool

/-- gRPC status codes the gatekeeper uses. -/
inductive Code
  | Unauthenticated
  | PermissionDenied
  deriving DecidableEq, Repr

/-- The gatekeeper's error surface: gRPC status errors with code and message,
plain Go errors, and the cluster-resolution failure of `Profiles.Find`
(modelled from the spec: a distinct `ClusterNotFound` failure). -/
inductive Err
  | status (code : Code) (msg : String)
  | plain (msg : String)
  | clusterNotFound (cluster : String)
  deriving DecidableEq, Repr

/-- `Profiles.Find` — modelled from the spec: maps a cluster identifier to
its preconfigured profile; an unknown identifier is a distinct
`ClusterNotFound` failure. -/
def GatekeeperCfg.Find (cfg : GatekeeperCfg) (cluster : String) : Except Err Clients :=
  match cfg.profiles.lookup cluster with
  | some p => .ok p
  | none => .error (.clusterNotFound cluster)

/-- `gatekeeper.clientForAuthorization`: builds a profile from a bearer
credential via the external kubeconfig/profile chain. -/
def clientForAuthorization (env : Env) (authorization : String) : Except String Clients :=
  env.newClientsFor authorization

/-- `gatekeeper.canDelegateRBACToRequestNamespace`. -/
def canDelegateRBACToRequestNamespace (cfg : GatekeeperCfg) (env : Env) (ns : String) : Bool :=
  if cfg.namespaced || env.getenv "SSO_DELEGATE_RBAC_TO_NAMESPACE" != "true" then false
  else ns.length != 0 && cfg.ssoNamespace != ns

/-- `gatekeeper.authorizationForServiceAccount`: the first bound secret's
`token` datum as a bearer credential; no bound secret is a hard failure. -/
def authorizationForServiceAccount (env : Env) (serviceAccount : ServiceAccount) :
    Except String String :=
  match serviceAccount.secrets with
  | [] => .error s!"expected at least one secret for SSO RBAC service account: {serviceAccount.name}"
  | secretName :: _ =>
    match env.getSecret serviceAccount.saNamespace secretName with
    | .error e => .error s!"failed to get service account secret: {e}"
    | .ok secret => .ok ("Bearer " ++ ((secret.data.lookup "token").getD ""))

/-- `gatekeeper.getClientsForServiceAccount`: builds the delegate profile and
writes the chosen account's name back onto the claims. -/
def getClientsForServiceAccount (env : Env) (claims : Claims) (serviceAccount : ServiceAccount) :
    Except String (Clients × Claims) :=
  match authorizationForServiceAccount env serviceAccount with
  | .error e => .error e
  | .ok authorization =>
    match clientForAuthorization env authorization with
    | .error e => .error e
    | .ok clients => .ok (clients, { claims with serviceAccountName := serviceAccount.name })

/-- The audit log entry `rbacAuthorization` emits on every selection. -/
structure RBACAudit where
  serviceAccount : String
  loginServiceAccount : String
  subject : String
  ssoDelegationAllowed : Bool
  ssoDelegated : Bool
  deriving DecidableEq, Repr

/-- `gatekeeper.rbacAuthorization`: select the identity-home (login) account,
optionally override it with the requested-namespace account when delegation
is permitted and that account strictly outranks the login account, emit the
audit entry, and build the delegate's clients.  The audit entry is part of
the result (`none` when login-account selection failed before the log
line). -/
def rbacAuthorization (cfg : GatekeeperCfg) (env : Env) (claims : Claims) (ns : String) :
    Option RBACAudit × Except String (Clients × Claims) :=
  match getServiceAccount env claims cfg.ssoNamespace with
  | .error e => (none, .error e)
  | .ok loginAccount =>
    let ssoDelegationAllowed := canDelegateRBACToRequestNamespace cfg env ns
    let chosen : ServiceAccount × Bool :=
      if ssoDelegationAllowed then
        match getServiceAccount env claims ns with
        | .error _ => (loginAccount, false)
        | .ok namespaceAccount =>
          if precedence namespaceAccount > precedence loginAccount then (namespaceAccount, true)
          else (loginAccount, false)
      else (loginAccount, false)
    let audit : RBACAudit :=
      { serviceAccount := chosen.1.name
        loginServiceAccount := loginAccount.name
        subject := claims.subject
        ssoDelegationAllowed := ssoDelegationAllowed
        ssoDelegated := chosen.2 }
    (some audit, getClientsForServiceAccount env claims chosen.1)

/-- Incoming call metadata: the values of the `authorization` metadata key,
and the cookies of the `cookie` headers already parsed (by the external
`net/http` cookie parser) into ordered (name, value) pairs. -/
structure MD where
  authorizationMD : List String
  cookies : List (String × String)
  deriving Repr

/-- `getAuthHeaders`: the first `authorization` metadata value alone when
present; otherwise the values of every cookie named `authorization`. -/
def getAuthHeaders (md : MD) : List String :=
  match md.authorizationMD with
  | t :: _ => [t]
  | [] => (md.cookies.filter (fun c => c.1 == "authorization")).map (fun c => c.2)

/-- The candidate-token sequence of `getClients`: the extracted auth
headers, or the single empty-string sentinel when there are none (required
for Server mode with no credential). -/
def candidateTokens (md : MD) : List String :=
  let authorizations := getAuthHeaders md
  if authorizations = [] then [""] else authorizations

/-- The mode-selection loop of `getClients`: the first candidate token
recognized by an enabled mode wins; no further candidate is examined. -/
def selectMode (cfg : GatekeeperCfg) : List String → Option (Mode × String)
  | [] => none
  | token :: rest =>
    match cfg.getMode token with
    | some mode => some (mode, token)
    | none => selectMode cfg rest

/-- `servertypes.Req`: the request descriptor.  The embedding takes the
descriptor directly; its derivation from a generic request via
`getOperationID`/`splitOp` is external transport plumbing. -/
structure Req where
  cluster : String
  reqNamespace : String
  act : String
  resource : String
  deriving DecidableEq, Repr

/-- The message of the `PermissionDenied` error the `allowed` closure builds
from a false enforcement verdict (Go `%q` quotes each argument). -/
def accessDeniedMsg (sub obj act : String) : String :=
  s!"access denied to \"{sub}\" for \"{obj}\" \"{act}\""

/-- The `allowed` closure of `getClients`: an engine error propagates as a
plain error; a false verdict becomes `PermissionDenied` carrying the
detailed `access denied` message; a true verdict passes. -/
def allowed (e : Enforcer) (obj act sub : String) : Except Err Unit :=
  match e.enforceRes sub obj act with
  | .error msg => .error (.plain msg)
  | .ok false => .error (.status .PermissionDenied (accessDeniedMsg sub obj act))
  | .ok true => .ok ()

/-- The policy object key `cluster:resource:namespace` of a request. -/
def objOf (msg : Req) : String :=
  s!"{msg.cluster}:{msg.resource}:{msg.reqNamespace}"

/-- The Server-mode enforcement subject
`serviceaccount:<primaryCluster>:<serverNamespace>:argo-server`. -/
def serverSub (cfg : GatekeeperCfg) : String :=
  s!"serviceaccount:{cfg.primaryCluster}:{cfg.serverNamespace}:argo-server"

/-- The SSO-mode enforcement subject `user:<primaryCluster>:<subject>`. -/
def userSub (cfg : GatekeeperCfg) (claims : Claims) : String :=
  s!"user:{cfg.primaryCluster}:{claims.subject}"

/-- The RBAC gate of the SSO branch of `getClients`: with RBAC enabled, a
failed `rbacAuthorization` (logged) surfaces as `PermissionDenied` with the
fixed message `not allowed`; with RBAC disabled the primary profile and the
authorizer's claims are used directly (after the audit log entry). -/
def ssoRBACStep (cfg : GatekeeperCfg) (env : Env) (claims0 : Claims) (ns : String) :
    Except Err (Clients × Claims) :=
  if env.isRBACEnabled then
    match (rbacAuthorization cfg env claims0 ns).2 with
    | .error _ => .error (.status .PermissionDenied "not allowed")
    | .ok res => .ok res
  else .ok (cfg.primary, claims0)

/-- `gatekeeper.getClients`: the whole per-request resolution — candidate
extraction, mode selection, and the per-mode dispatch — returning the
resolved clients with the (possibly nil) claims, or the error, together with
the enforcer state left behind.  The SSO branch reproduces the Go control
flow exactly: RBAC selection first, then the transient group-policy add, the
deferred removal registered only after a fully successful add, the
enforcement check, and cluster resolution. -/
def getClients (cfg : GatekeeperCfg) (env : Env) (enf : Enforcer) (md : MD) (msg : Req) :
    Except Err (Clients × Option Claims) × Enforcer :=
  match selectMode cfg (candidateTokens md) with
  | none => (.error (.status .Unauthenticated "token not valid for running mode"), enf)
  | some (mode, authorization) =>
    let obj := objOf msg
    match mode with
    | .Client =>
      match clientForAuthorization env authorization with
      | .error e => (.error (.status .Unauthenticated e), enf)
      | .ok clients => (.ok (clients, env.claimSetFor clients.restConfig), enf)
    | .Server =>
      let claims := env.claimSetFor cfg.primary.restConfig
      let sub := serverSub cfg
      match allowed enf obj msg.act sub with
      | .error e => (.error e, enf)
      | .ok _ =>
        match cfg.Find msg.cluster with
        | .error e => (.error e, enf)
        | .ok p => (.ok (p, claims), enf)
    | .SSO =>
      match env.ssoAuthorize authorization with
      | .error e => (.error (.status .Unauthenticated e), enf)
      | .ok claims0 =>
        match ssoRBACStep cfg env claims0 msg.reqNamespace with
        | .error e => (.error e, enf)
        | .ok (clients, claims) =>
          let sub := userSub cfg claims
          match addPolicies enf claims msg.cluster sub with
          | (some e, enf2) => (.error (.plain e), enf2)
          | (none, enf2) =>
            let result : Except Err (Clients × Option Claims) :=
              match allowed enf2 obj msg.act sub with
              | .error e => .error e
              | .ok _ =>
                if msg.cluster = cfg.primaryCluster then .ok (clients, some claims)
                else
                  match cfg.Find msg.cluster with
                  | .error e => .error e
                  | .ok p => .ok (p, some claims)
            let removed := removePolicies enf2 claims msg.cluster sub
            (result, removed.2)

/-- The per-request context bag after `Context` has run: each key holds the
attached value, `none` standing for a key never attached. -/
structure AuthCtx where
  dynamicVal : Option String
  wfVal : Option String
  eventSourceVal : Option String
  sensorVal : Option String
  kubeVal : Option String
  claimsVal : Option Claims
  deriving DecidableEq, Repr

/-- A context on which resolution never ran. -/
def emptyAuthCtx : AuthCtx :=
  { dynamicVal := none, wfVal := none, eventSourceVal := none
    sensorVal := none, kubeVal := none, claimsVal := none }

/-- `GetDynamicClient`: a bare type assertion, which panics (modelled as
`.error`) when the key was never attached. -/
def GetDynamicClient (ctx : AuthCtx) : Except String String :=
  match ctx.dynamicVal with
  | some v => .ok v
  | none => .error "panic: interface conversion"

/-- `GetWfClient`: a bare type assertion, panics when the key was never
attached. -/
def GetWfClient (ctx : AuthCtx) : Except String String :=
  match ctx.wfVal with
  | some v => .ok v
  | none => .error "panic: interface conversion"

/-- `GetEventSourceClient`: a bare type assertion, panics when the key was
never attached. -/
def GetEventSourceClient (ctx : AuthCtx) : Except String String :=
  match ctx.eventSourceVal with
  | some v => .ok v
  | none => .error "panic: interface conversion"

/-- `GetSensorClient`: a bare type assertion, panics when the key was never
attached. -/
def GetSensorClient (ctx : AuthCtx) : Except String String :=
  match ctx.sensorVal with
  | some v => .ok v
  | none => .error "panic: interface conversion"

/-- `GetKubeClient`: a bare type assertion, panics when the key was never
attached. -/
def GetKubeClient (ctx : AuthCtx) : Except String String :=
  match ctx.kubeVal with
  | some v => .ok v
  | none => .error "panic: interface conversion"

/-- `GetClaims`: the comma-ok type assertion — total, never panics; a missing
or nil value comes back as `none`. -/
def GetClaims (ctx : AuthCtx) : Option Claims :=
  ctx.claimsVal

/-! ### Concrete fixtures, mirroring the repository's test data -/

/-- A service-account fixture carrying rule and precedence annotations. -/
def mkSA (n ns prec rule : String) : ServiceAccount :=
  { name := n, saNamespace := ns
    annotations := [(AnnotationKeyRBACRule, rule), (AnnotationKeyRBACRulePrecedence, prec)]
    secrets := ["s"] }

/-- Claims fixture for an SSO user in two groups. -/
def fxClaims : Claims :=
  { subject := "my-sub", email := "", groups := ["g1", "g2"], serviceAccountName := "" }

/-- The primary profile fixture. -/
def fxClients : Clients :=
  { id := "primary", restConfig := "rc0" }

/-- Environment fixture: the SSO token `Bearer v2:tok` authorizes `fxClaims`,
RBAC is disabled, rules evaluate true exactly when the rule text is `match`,
and derivable claims are absent (`claimSetFor` yields `none`). -/
def fxEnv : Env :=
  { getenv := fun _ => "true"
    ssoAuthorize := fun t => if t == "Bearer v2:tok" then .ok fxClaims else .error "no identity"
    isRBACEnabled := false
    listServiceAccounts := fun ns =>
      if ns == "my-ns" then
        .ok [mkSA "my-other-sa" "my-ns" "0" "match2", mkSA "my-sa" "my-ns" "1" "match"]
      else if ns == "user1-ns" then .ok [mkSA "user1-sa" "user1-ns" "2" "match"]
      else .ok []
    getSecret := fun _ _ => .ok { data := [("token", "tok")] }
    jsonify := fun _ => .ok "json"
    evalBool := fun rule _ => .ok (rule == "match")
    newClientsFor := fun a => .ok { id := "c:" ++ a, restConfig := "rc:" ++ a }
    claimSetFor := fun _ => none }

/-- Gatekeeper configuration fixture: primary cluster `c0`, server namespace
`argo`, identity-home namespace `my-ns`, cluster-scoped install. -/
def fxCfg : GatekeeperCfg :=
  { getMode := fun t =>
      if t == "" then some .Server
      else if t == "Bearer v2:tok" then some .SSO
      else if t == "Bearer x" then some .Client
      else none
    primary := fxClients
    profiles := [("c0", fxClients)]
    primaryCluster := "c0"
    serverNamespace := "argo"
    ssoNamespace := "my-ns"
    namespaced := false }

/-- Enforcer fixture: empty edge store, every engine call succeeds, every
enforcement passes. -/
def fxEnf : Enforcer :=
  { edges := [], addErr := fun _ _ => none, removeErr := fun _ _ => none
    enforceRes := fun _ _ _ => .ok true }

/-- Request fixture targeting the primary cluster and namespace `user1-ns`. -/
def fxMsg : Req :=
  { cluster := "c0", reqNamespace := "user1-ns", act := "get", resource := "workflows" }

/-- Metadata fixture carrying the SSO token in the authorization header. -/
def fxMD : MD :=
  { authorizationMD := ["Bearer v2:tok"], cookies := [] }

/-- Environment fixture for delegation with an empty requested namespace:
the identity-home namespace holds a precedence-1 match and the empty-string
namespace a precedence-5 match. -/
def fxEnvC2 : Env :=
  { fxEnv with
    listServiceAccounts := fun ns =>
      if ns == "my-ns" then .ok [mkSA "my-sa" "my-ns" "1" "match"]
      else if ns == "" then .ok [mkSA "root-sa" "" "5" "match"]
      else .ok [] }

/-- Environment fixture where the requested namespace's only match carries
an unparseable precedence annotation. -/
def fxEnvC10 : Env :=
  { fxEnv with
    listServiceAccounts := fun ns =>
      if ns == "my-ns" then .ok [mkSA "my-sa" "my-ns" "1" "match"]
      else if ns == "user1-ns" then .ok [mkSA "ns-sa" "user1-ns" "bogus" "match"]
      else .ok [] }

/-! ### Helper lemmas on the transient-grant loops -/

/-- When the engine's add operations all succeed, `addPoliciesLoop` reports
no error, leaves the oracles untouched, and every edge of the resulting
store is an original edge or one of the subject's group edges. -/
theorem addPoliciesLoop_noErr (sub cluster : String) (gs : List String) :
    ∀ e : Enforcer, (∀ s g, e.addErr s g = none) →
      (addPoliciesLoop sub cluster gs e).1 = none ∧
      (addPoliciesLoop sub cluster gs e).2.addErr = e.addErr ∧
      (addPoliciesLoop sub cluster gs e).2.removeErr = e.removeErr ∧
      (addPoliciesLoop sub cluster gs e).2.enforceRes = e.enforceRes ∧
      ∀ x ∈ (addPoliciesLoop sub cluster gs e).2.edges,
        x ∈ e.edges ∨ ∃ g ∈ gs, x = (sub, groupStr cluster g) := by
  induction gs with
  | nil =>
    intro e _
    simp [addPoliciesLoop]
  | cons g gs ih =>
    intro e ha
    simp only [addPoliciesLoop, Enforcer.addGroupingPolicy, ha]
    by_cases hmem : (sub, groupStr cluster g) ∈ e.edges
    · simp only [if_pos hmem]
      obtain ⟨h1, h2, h3, h4, h5⟩ := ih e ha
      refine ⟨h1, h2, h3, h4, fun x hx => ?_⟩
      rcases h5 x hx with h | ⟨g', hg', hx'⟩
      · exact .inl h
      · exact .inr ⟨g', List.mem_cons_of_mem _ hg', hx'⟩
    · simp only [if_neg hmem]
      obtain ⟨h1, h2, h3, h4, h5⟩ :=
        ih { e with edges := e.edges ++ [(sub, groupStr cluster g)] } (fun s g' => ha s g')
      refine ⟨h1, h2, h3, h4, fun x hx => ?_⟩
      rcases h5 x hx with h | ⟨g', hg', hx'⟩
      · rcases List.mem_append.mp h with h' | h'
        · exact .inl h'
        · exact .inr ⟨g, List.mem_cons_self _ _, by simpa using h'⟩
      · exact .inr ⟨g', List.mem_cons_of_mem _ hg', hx'⟩

/-- When the engine's remove operations all succeed, `removePoliciesLoop`
leaves the oracles untouched and retains exactly the edges that are none of
the subject's group edges. -/
theorem removePoliciesLoop_noErr (sub cluster : String) (gs : List String) :
    ∀ e : Enforcer, (∀ s g, e.removeErr s g = none) →
      (removePoliciesLoop sub cluster gs e).2.addErr = e.addErr ∧
      (removePoliciesLoop sub cluster gs e).2.removeErr = e.removeErr ∧
      (removePoliciesLoop sub cluster gs e).2.enforceRes = e.enforceRes ∧
      ∀ x, x ∈ (removePoliciesLoop sub cluster gs e).2.edges ↔
        (x ∈ e.edges ∧ ∀ g ∈ gs, x ≠ (sub, groupStr cluster g)) := by
  induction gs with
  | nil =>
    intro e _
    simp [removePoliciesLoop]
  | cons g gs ih =>
    intro e hr
    simp only [removePoliciesLoop, Enforcer.removeGroupingPolicy, hr]
    obtain ⟨h2, h3, h4, h5⟩ :=
      ih { e with edges := e.edges.filter (fun p => p ≠ (sub, groupStr cluster g)) }
        (fun s g' => hr s g')
    refine ⟨h2, h3, h4, fun x => ?_⟩
    rw [h5 x]
    simp only [List.mem_filter, decide_eq_true_eq, List.forall_mem_cons]
    tauto

/-- Adding all group edges of a subject and then removing them leaves no
edge of any subject `s0` behind that the store did not already hold one for,
provided the engine's add/remove calls succeed. -/
theorem transient_roundtrip (sub cluster : String) (gs : List String) (e : Enforcer)
    (ha : ∀ s g, e.addErr s g = none) (hr : ∀ s g, e.removeErr s g = none)
    (s0 : String) (hsub : ∀ x ∈ e.edges, x.1 ≠ s0) :
    ∀ x ∈ (removePoliciesLoop sub cluster gs (addPoliciesLoop sub cluster gs e).2).2.edges,
      x.1 ≠ s0 := by
  obtain ⟨-, -, hremPres, -, hedges⟩ := addPoliciesLoop_noErr sub cluster gs e ha
  obtain ⟨-, -, -, hmem⟩ :=
    removePoliciesLoop_noErr sub cluster gs (addPoliciesLoop sub cluster gs e).2
      (fun s g => by rw [hremPres]; exact hr s g)
  intro x hx
  obtain ⟨hxadd, hxnot⟩ := (hmem x).mp hx
  rcases hedges x hxadd with h | ⟨g, hg, hxg⟩
  · exact hsub x h
  · exact absurd hxg (hxnot g hg)

/-- C1 (amended): with a policy engine whose add and remove operations
succeed, every exit path of an authorization decision — allow, deny,
enforcement error, cluster-resolution failure, in any mode — returns with
the policy engine holding no group edge for any subject it held none for
initially, the SSO decision's subject in particular.  If the add step itself
fails partway, the code returns before registering the deferred removal, so
already-added edges are left behind (see the counterexample). -/
theorem C1_transient_grants_removed (cfg : GatekeeperCfg) (env : Env) (enf : Enforcer)
    (md : MD) (msg : Req) (s0 : String)
    (ha : ∀ s g, enf.addErr s g = none) (hr : ∀ s g, enf.removeErr s g = none)
    (h0 : enf.edges.all (fun x => x.1 != s0) = true) :
    (getClients cfg env enf md msg).2.edges.all (fun x => x.1 != s0) = true := by
  rw [List.all_eq_true] at h0 ⊢
  have h0' : ∀ x ∈ enf.edges, x.1 ≠ s0 := fun x hx => bne_iff_ne.mp (h0 x hx)
  intro x hx
  rw [bne_iff_ne]
  simp only [getClients] at hx
  split at hx
  · exact h0' x hx
  · split at hx
    · split at hx
      · exact h0' x hx
      · exact h0' x hx
    · split at hx
      · exact h0' x hx
      · split at hx
        · exact h0' x hx
        · exact h0' x hx
    · split at hx
      · exact h0' x hx
      · split at hx
        · exact h0' x hx
        · rename_i claims0 hauth pair heq2
          split at hx
          · rename_i emsg enf2 heq
            obtain ⟨h1, -⟩ :=
              addPoliciesLoop_noErr (userSub cfg pair) msg.cluster pair.groups enf ha
            rw [addPolicies] at heq
            rw [heq] at h1
            simp at h1
          · rename_i enf2 heq
            rw [addPolicies] at heq
            have henf2 : enf2 = (addPoliciesLoop (userSub cfg pair) msg.cluster
                pair.groups enf).2 := by
              rw [heq]
            rw [removePolicies, henf2] at hx
            exact transient_roundtrip (userSub cfg pair) msg.cluster pair.groups enf
              ha hr s0 h0' x hx

/-- C1 witness: the amended theorem at the fixture decision — after the SSO
decision the engine holds no edge for subject `user:c0:my-sub`. -/
theorem C1_witness :
    (getClients fxCfg fxEnv fxEnf fxMD fxMsg).2.edges.all
      (fun x => x.1 != "user:c0:my-sub") = true :=
  C1_transient_grants_removed fxCfg fxEnv fxEnf fxMD fxMsg "user:c0:my-sub"
    (fun _ _ => rfl) (fun _ _ => rfl) rfl

/-- C1 counterexample: the claim fails on the path where the add step fails
partway.  With claim groups `g1, g2` and an engine whose add errors on the
`g2` edge, the decision returns the add error while the already-added `g1`
edge for the subject `user:c0:my-sub` is still in the store. -/
theorem C1_counterexample :
    (getClients fxCfg fxEnv
        { fxEnf with addErr := fun _ g => if g == "group:c0:g2" then some "boom" else none }
        fxMD fxMsg).1 = .error (.plain "failed to add policy for group \"group:c0:g2\"") ∧
    (getClients fxCfg fxEnv
        { fxEnf with addErr := fun _ g => if g == "group:c0:g2" then some "boom" else none }
        fxMD fxMsg).2.edges = [("user:c0:my-sub", "group:c0:g1")] :=
  ⟨rfl, rfl⟩

/-- C4 (amended): in SSO mode, when the policy-engine enforcement check
returns false the caller-visible error is `PermissionDenied` carrying the
detailed message `access denied to "<sub>" for "<obj>" "<act>"` — the
detailed reason is returned to the caller rather than replaced by the fixed
`not allowed` message, which the code uses only for RBAC service-account
selection failures. -/
theorem C4_sso_denial_detailed_message (cfg : GatekeeperCfg) (env : Env) (enf : Enforcer)
    (md : MD) (msg : Req) (tok : String) (claims0 claims : Claims) (clients : Clients)
    (hmd : md.authorizationMD = [tok])
    (hmode : cfg.getMode tok = some .SSO)
    (hauth : env.ssoAuthorize tok = .ok claims0)
    (hrbac : ssoRBACStep cfg env claims0 msg.reqNamespace = .ok (clients, claims))
    (ha : ∀ s g, enf.addErr s g = none)
    (hden : enf.enforceRes (userSub cfg claims) (objOf msg) msg.act = .ok false) :
    (getClients cfg env enf md msg).1 =
      .error (.status .PermissionDenied
        (accessDeniedMsg (userSub cfg claims) (objOf msg) msg.act)) := by
  have hct : candidateTokens md = [tok] := by
    simp [candidateTokens, getAuthHeaders, hmd]
  obtain ⟨h1, -, -, h4, -⟩ :=
    addPoliciesLoop_noErr (userSub cfg claims) msg.cluster claims.groups enf ha
  have hp := (Prod.mk.eta
    (p := addPoliciesLoop (userSub cfg claims) msg.cluster claims.groups enf)).symm
  rw [h1] at hp
  simp only [getClients, hct]
  simp only [selectMode, hmode, hauth, hrbac, addPolicies]
  rw [hp]
  simp only [allowed, h4, hden]

/-- C4 witness: the amended theorem at the fixture decision with a denying
engine. -/
theorem C4_witness :
    (getClients fxCfg fxEnv { fxEnf with enforceRes := fun _ _ _ => .ok false } fxMD fxMsg).1 =
      .error (.status .PermissionDenied
        (accessDeniedMsg (userSub fxCfg fxClaims) (objOf fxMsg) fxMsg.act)) :=
  C4_sso_denial_detailed_message fxCfg fxEnv
    { fxEnf with enforceRes := fun _ _ _ => .ok false } fxMD fxMsg
    "Bearer v2:tok" fxClaims fxClaims fxCfg.primary rfl rfl rfl rfl (fun _ _ => rfl) rfl

/-- C4 counterexample: the claim fails — an SSO enforcement denial reaches
the caller as `PermissionDenied` with the detailed access-denied message,
which is not the fixed string `not allowed`. -/
theorem C4_counterexample :
    (getClients fxCfg fxEnv { fxEnf with enforceRes := fun _ _ _ => .ok false } fxMD fxMsg).1 =
      .error (.status .PermissionDenied
        "access denied to \"user:c0:my-sub\" for \"c0:workflows:user1-ns\" \"get\"") ∧
    "access denied to \"user:c0:my-sub\" for \"c0:workflows:user1-ns\" \"get\"" ≠ "not allowed" :=
  ⟨rfl, by decide⟩

/-- C8 (amended): when SSO service-account selection finds no matching rule,
the failure (logged inside `getClients`) surfaces to the caller as
`PermissionDenied` with message exactly `not allowed`, the same way every
RBAC-selection failure does; an enforcement denial, however, carries a
different detailed message, so the two classes are distinguishable by
message though they share the `PermissionDenied` code. -/
theorem C8_no_matching_rule_not_allowed (cfg : GatekeeperCfg) (env : Env) (enf : Enforcer)
    (md : MD) (msg : Req) (tok : String) (claims0 : Claims)
    (hmd : md.authorizationMD = [tok])
    (hmode : cfg.getMode tok = some .SSO)
    (hauth : env.ssoAuthorize tok = .ok claims0)
    (hrbacOn : env.isRBACEnabled = true)
    (hnorule : (rbacAuthorization cfg env claims0 msg.reqNamespace).2 =
      .error "no service account rule matches") :
    (getClients cfg env enf md msg).1 = .error (.status .PermissionDenied "not allowed") := by
  have hct : candidateTokens md = [tok] := by
    simp [candidateTokens, getAuthHeaders, hmd]
  have hstep : ssoRBACStep cfg env claims0 msg.reqNamespace =
      .error (.status .PermissionDenied "not allowed") := by
    simp only [ssoRBACStep, hrbacOn, if_true, hnorule]
  simp only [getClients, hct]
  simp only [selectMode, hmode, hauth, hstep]

/-- C8 witness: the amended theorem at a fixture where no rule matches. -/
theorem C8_witness :
    (getClients fxCfg { fxEnv with isRBACEnabled := true, evalBool := fun _ _ => .ok false }
        fxEnf fxMD fxMsg).1 = .error (.status .PermissionDenied "not allowed") :=
  C8_no_matching_rule_not_allowed fxCfg
    { fxEnv with isRBACEnabled := true, evalBool := fun _ _ => .ok false }
    fxEnf fxMD fxMsg "Bearer v2:tok" fxClaims rfl rfl rfl rfl rfl

/-- C8 counterexample: the indistinguishability part of the claim fails —
a no-matching-rule failure yields `PermissionDenied` with `not allowed`,
while an enforcement denial of the same request yields `PermissionDenied`
with a different, detailed message. -/
theorem C8_counterexample :
    (getClients fxCfg { fxEnv with isRBACEnabled := true, evalBool := fun _ _ => .ok false }
        fxEnf fxMD fxMsg).1 = .error (.status .PermissionDenied "not allowed") ∧
    (getClients fxCfg fxEnv { fxEnf with enforceRes := fun _ _ _ => .ok false } fxMD fxMsg).1 =
      .error (.status .PermissionDenied
        "access denied to \"user:c0:my-sub\" for \"c0:workflows:user1-ns\" \"get\"") ∧
    "access denied to \"user:c0:my-sub\" for \"c0:workflows:user1-ns\" \"get\"" ≠ "not allowed" :=
  ⟨rfl, rfl, by decide⟩

/-- A successful mode selection decomposes the candidate list into rejected
candidates, the winning token, and the unexamined tail. -/
theorem selectMode_eq_some (cfg : GatekeeperCfg) :
    ∀ (l : List String) (m : Mode) (t : String), selectMode cfg l = some (m, t) →
      ∃ l1 l2, l = l1 ++ t :: l2 ∧ (∀ t' ∈ l1, cfg.getMode t' = none) ∧
        cfg.getMode t = some m := by
  intro l
  induction l with
  | nil => intro m t h; simp [selectMode] at h
  | cons a rest ih =>
    intro m t h
    simp only [selectMode] at h
    cases hm : cfg.getMode a with
    | some mode =>
      rw [hm] at h
      simp only [Option.some.injEq, Prod.mk.injEq] at h
      obtain ⟨hm', ht⟩ := h
      subst hm'
      subst ht
      exact ⟨[], rest, rfl, by simp, hm⟩
    | none =>
      rw [hm] at h
      obtain ⟨l1, l2, hl, hall, hmt⟩ := ih m t h
      exact ⟨a :: l1, l2, by rw [hl]; rfl, by
        intro t' ht'
        rcases List.mem_cons.mp ht' with h' | h'
        · rw [h']; exact hm
        · exact hall t' h', hmt⟩

/-- When no candidate token is recognized, mode selection yields nothing. -/
theorem selectMode_eq_none (cfg : GatekeeperCfg) :
    ∀ l : List String, (∀ t ∈ l, cfg.getMode t = none) → selectMode cfg l = none := by
  intro l
  induction l with
  | nil => intro _; rfl
  | cons a rest ih =>
    intro hall
    simp only [selectMode, hall a (List.mem_cons_self a rest)]
    exact ih (fun t ht => hall t (List.mem_cons_of_mem a ht))

/-- C5: candidate tokens are tried in order — the authorization header value
first; when absent, every cookie value named `authorization`; when none, a
single empty-string sentinel.  The first token recognized by an enabled mode
wins (yielding at most one (mode, token) pair, as `selectMode` is
`Option`-valued), and when no candidate matches any enabled mode the request
fails as `Unauthenticated`. -/
theorem C5_mode_selection (cfg : GatekeeperCfg) (env : Env) (enf : Enforcer)
    (md : MD) (msg : Req) :
    (∀ t rest, md.authorizationMD = t :: rest → candidateTokens md = [t]) ∧
    (md.authorizationMD = [] →
      candidateTokens md =
        (if ((md.cookies.filter (fun c => c.1 == "authorization")).map (fun c => c.2)) = []
         then [""]
         else (md.cookies.filter (fun c => c.1 == "authorization")).map (fun c => c.2))) ∧
    (∀ m t, selectMode cfg (candidateTokens md) = some (m, t) →
      ∃ l1 l2, candidateTokens md = l1 ++ t :: l2 ∧
        (∀ t' ∈ l1, cfg.getMode t' = none) ∧ cfg.getMode t = some m) ∧
    ((∀ t ∈ candidateTokens md, cfg.getMode t = none) →
      (getClients cfg env enf md msg).1 =
        .error (.status .Unauthenticated "token not valid for running mode")) := by
  refine ⟨?_, ?_, ?_, ?_⟩
  · intro t rest h
    simp [candidateTokens, getAuthHeaders, h]
  · intro h
    unfold candidateTokens getAuthHeaders
    rw [h]
  · exact fun m t h => selectMode_eq_some cfg (candidateTokens md) m t h
  · intro hall
    simp only [getClients, selectMode_eq_none cfg (candidateTokens md) hall]

/-- C5 witness: a request whose only candidate token no enabled mode
recognizes fails as `Unauthenticated`. -/
theorem C5_witness :
    (getClients fxCfg fxEnv fxEnf { authorizationMD := ["zzz"], cookies := [] } fxMsg).1 =
      .error (.status .Unauthenticated "token not valid for running mode") :=
  (C5_mode_selection fxCfg fxEnv fxEnf { authorizationMD := ["zzz"], cookies := [] }
    fxMsg).2.2.2 (by decide)

/-- C6: in Server mode the enforcement subject is exactly
`serviceaccount:<primaryCluster>:<serverNamespace>:argo-server`; a false
enforcement verdict produces the `PermissionDenied` failure no matter
whether the requested cluster resolves (the check precedes resolution), and
with a passing check an unknown requested cluster produces the distinct
`ClusterNotFound` failure, which equals no `PermissionDenied` status
error. -/
theorem C6_server_mode (cfg : GatekeeperCfg) (env : Env) (enf : Enforcer)
    (md : MD) (msg : Req) (tok : String)
    (hmd : md.authorizationMD = [tok])
    (hmode : cfg.getMode tok = some .Server) :
    serverSub cfg =
      "serviceaccount:" ++ cfg.primaryCluster ++ ":" ++ cfg.serverNamespace ++ ":argo-server" ∧
    (enf.enforceRes (serverSub cfg) (objOf msg) msg.act = .ok false →
      (getClients cfg env enf md msg).1 =
        .error (.status .PermissionDenied
          (accessDeniedMsg (serverSub cfg) (objOf msg) msg.act))) ∧
    (enf.enforceRes (serverSub cfg) (objOf msg) msg.act = .ok true →
      cfg.profiles.lookup msg.cluster = none →
      (getClients cfg env enf md msg).1 = .error (.clusterNotFound msg.cluster)) ∧
    (∀ c m, Err.clusterNotFound c ≠ Err.status .PermissionDenied m) := by
  have hct : candidateTokens md = [tok] := by
    simp [candidateTokens, getAuthHeaders, hmd]
  refine ⟨rfl, ?_, ?_, ?_⟩
  · intro hden
    simp only [getClients, hct]
    simp only [selectMode, hmode]
    simp only [allowed, hden]
  · intro hpass hfind
    simp only [getClients, hct]
    simp only [selectMode, hmode]
    simp only [allowed, hpass, GatekeeperCfg.Find, hfind]
  · intro c m h
    exact Err.noConfusion h

/-- C6 witness: the theorem at the fixture — a denying engine yields the
detailed `PermissionDenied`, and a passing engine with an unknown requested
cluster yields `ClusterNotFound`. -/
theorem C6_witness :
    (getClients fxCfg fxEnv { fxEnf with enforceRes := fun _ _ _ => .ok false }
        { authorizationMD := [""], cookies := [] } fxMsg).1 =
      .error (.status .PermissionDenied
        (accessDeniedMsg (serverSub fxCfg) (objOf fxMsg) fxMsg.act)) ∧
    (getClients fxCfg fxEnv fxEnf { authorizationMD := [""], cookies := [] }
        { fxMsg with cluster := "c1" }).1 = .error (.clusterNotFound "c1") :=
  ⟨(C6_server_mode fxCfg fxEnv { fxEnf with enforceRes := fun _ _ _ => .ok false }
      { authorizationMD := [""], cookies := [] } fxMsg "" rfl rfl).2.1 rfl,
   (C6_server_mode fxCfg fxEnv fxEnf { authorizationMD := [""], cookies := [] }
      { fxMsg with cluster := "c1" } "" rfl rfl).2.2.1 rfl rfl⟩

/-- C7 (amended): on every successful SSO resolution the returned claims are
non-nil; Client- and Server-mode resolutions derive claims best-effort from
the credential and may return nil claims on success (see the
counterexample). -/
theorem C7_sso_claims_nonnil (cfg : GatekeeperCfg) (env : Env) (enf : Enforcer)
    (md : MD) (msg : Req) (tok : String) (c : Clients) (co : Option Claims)
    (hsel : selectMode cfg (candidateTokens md) = some (.SSO, tok))
    (hres : (getClients cfg env enf md msg).1 = .ok (c, co)) :
    co.isSome = true := by
  simp only [getClients, hsel] at hres
  split at hres
  · simp at hres
  · split at hres
    · simp at hres
    · split at hres
      · simp at hres
      · split at hres
        · simp at hres
        · split at hres
          · simp only [Except.ok.injEq, Prod.mk.injEq] at hres
            rw [← hres.2]
            rfl
          · split at hres
            · simp at hres
            · simp only [Except.ok.injEq, Prod.mk.injEq] at hres
              rw [← hres.2]
              rfl

/-- C7 witness: the amended theorem at a fixture SSO resolution. -/
theorem C7_witness :
    (getClients fxCfg fxEnv fxEnf fxMD fxMsg).1 = .ok (fxCfg.primary, some fxClaims) ∧
    (some fxClaims).isSome = true :=
  ⟨rfl, C7_sso_claims_nonnil fxCfg fxEnv fxEnf fxMD fxMsg "Bearer v2:tok"
    fxCfg.primary (some fxClaims) rfl rfl⟩

/-- C7 counterexample: the claim fails in Client mode — the resolution
succeeds while the derived claim set is nil. -/
theorem C7_counterexample :
    (getClients fxCfg fxEnv fxEnf { authorizationMD := ["Bearer x"], cookies := [] } fxMsg).1 =
      .ok ({ id := "c:Bearer x", restConfig := "rc:Bearer x" }, (none : Option Claims)) ∧
    (none : Option Claims).isSome = false :=
  ⟨rfl, rfl⟩

/-- C9 (amended): the client accessors (dynamic, workflow, event-source,
sensor, kube) fail fast — a bare type assertion panics — when invoked on a
context where resolution never attached the value; the claims accessor,
however, uses the comma-ok assertion and returns nil instead of
panicking. -/
theorem C9_accessor_behaviour (ctx : AuthCtx) :
    (ctx.dynamicVal = none → GetDynamicClient ctx = .error "panic: interface conversion") ∧
    (ctx.wfVal = none → GetWfClient ctx = .error "panic: interface conversion") ∧
    (ctx.eventSourceVal = none →
      GetEventSourceClient ctx = .error "panic: interface conversion") ∧
    (ctx.sensorVal = none → GetSensorClient ctx = .error "panic: interface conversion") ∧
    (ctx.kubeVal = none → GetKubeClient ctx = .error "panic: interface conversion") ∧
    GetClaims ctx = ctx.claimsVal := by
  refine ⟨?_, ?_, ?_, ?_, ?_, rfl⟩
  · intro h
    simp [GetDynamicClient, h]
  · intro h
    simp [GetWfClient, h]
  · intro h
    simp [GetEventSourceClient, h]
  · intro h
    simp [GetSensorClient, h]
  · intro h
    simp [GetKubeClient, h]

/-- C9 witness: the amended theorem at the never-resolved context. -/
theorem C9_witness :
    GetWfClient emptyAuthCtx = .error "panic: interface conversion" ∧
    GetClaims emptyAuthCtx = none :=
  ⟨(C9_accessor_behaviour emptyAuthCtx).2.1 rfl,
   (C9_accessor_behaviour emptyAuthCtx).2.2.2.2.2⟩

/-- C9 counterexample: the claim fails for the claims accessor — invoked on
a context where resolution never attached claims it returns nil (a value,
not a panic), unlike the workflow-client accessor on the same context. -/
theorem C9_counterexample :
    GetClaims emptyAuthCtx = none ∧
    GetWfClient emptyAuthCtx = .error "panic: interface conversion" :=
  ⟨rfl, rfl⟩

/-- A successful `evalRuleLoop` splits its input into rejected accounts, the
winner, and the unexamined tail. -/
theorem evalRuleLoop_ok (env : Env) (claims : Claims) :
    ∀ (l : List ServiceAccount) (sa : ServiceAccount), evalRuleLoop env claims l = .ok sa →
      ∃ v l1 l2, env.jsonify claims = .ok v ∧ l = l1 ++ sa :: l2 ∧
        env.evalBool (ruleOf sa) v = .ok true ∧
        ∀ sa' ∈ l1, env.evalBool (ruleOf sa') v = .ok false := by
  intro l
  induction l with
  | nil =>
    intro sa h
    simp [evalRuleLoop] at h
  | cons a rest ih =>
    intro sa h
    simp only [evalRuleLoop] at h
    cases hj : env.jsonify claims with
    | error e =>
      simp only [hj] at h
      simp at h
    | ok v =>
      simp only [hj] at h
      cases hb : env.evalBool (ruleOf a) v with
      | error e =>
        simp only [hb] at h
        simp at h
      | ok b =>
        simp only [hb] at h
        cases b with
        | true =>
          simp only [Except.ok.injEq] at h
          subst h
          exact ⟨v, [], rest, rfl, rfl, hb, by simp⟩
        | false =>
          obtain ⟨v', l1, l2, hj', hl, ht, hall⟩ := ih sa h
          rw [hj] at hj'
          injection hj' with hv
          subst hv
          refine ⟨v, a :: l1, l2, rfl, by rw [hl]; rfl, ht, ?_⟩
          intro sa' hsa'
          rcases List.mem_cons.mp hsa' with h' | h'
          · subst h'
            exact hb
          · exact hall sa' h'

/-- When every rule of the list evaluates false, `evalRuleLoop` fails with
the no-matching-rule error. -/
theorem evalRuleLoop_all_false (env : Env) (claims : Claims) (v : String)
    (hj : env.jsonify claims = .ok v) :
    ∀ l : List ServiceAccount, (∀ sa ∈ l, env.evalBool (ruleOf sa) v = .ok false) →
      evalRuleLoop env claims l = .error "no service account rule matches" := by
  intro l
  induction l with
  | nil => intro _; rfl
  | cons a rest ih =>
    intro hall
    simp only [evalRuleLoop, hj, hall a (List.mem_cons_self a rest)]
    exact ih (fun sa hsa => hall sa (List.mem_cons_of_mem a hsa))

/-- In a descending-precedence sorted decomposition `l1 ++ sa :: l2`, a
member with precedence strictly above `sa`'s lies in `l1`. -/
theorem higher_prec_mem_left (l1 l2 : List ServiceAccount) (sa sa' : ServiceAccount)
    (hsorted : List.Sorted precOrder (l1 ++ sa :: l2))
    (hmem : sa' ∈ l1 ++ sa :: l2)
    (hgt : precedence sa' > precedence sa) : sa' ∈ l1 := by
  rcases List.mem_append.mp hmem with h | h
  · exact h
  · exfalso
    rcases List.mem_cons.mp h with h' | h'
    · subst h'
      exact lt_irrefl _ hgt
    · have hp : List.Pairwise precOrder (l1 ++ sa :: l2) := hsorted
      have hpair : List.Pairwise precOrder (sa :: l2) := (List.pairwise_append.mp hp).2.1
      have hle : precOrder sa sa' := (List.pairwise_cons.mp hpair).1 sa' h'
      exact absurd hgt (not_lt.mpr hle)

/-- C3: the service-account selector's behaviour — a listing failure is a
failure; a returned account comes from the listed rule-bearing accounts, its
rule evaluates true on the JSON-serialized claims, and every listed
rule-bearing account of strictly higher precedence (hence evaluated earlier
in the descending-precedence order) evaluated false; and when every listed
rule-bearing account's rule evaluates false the selector fails with the
no-matching-rule error. -/
theorem C3_selector_characterization (env : Env) (claims : Claims) (ns : String) :
    (∀ e, env.listServiceAccounts ns = .error e →
      getServiceAccount env claims ns =
        .error s!"failed to list SSO RBAC service accounts: {e}") ∧
    (∀ list sa, env.listServiceAccounts ns = .ok list →
      getServiceAccount env claims ns = .ok sa →
      sa ∈ list ∧ hasRBACRule sa = true ∧
      ∃ v, env.jsonify claims = .ok v ∧ env.evalBool (ruleOf sa) v = .ok true ∧
        ∀ sa' ∈ list, hasRBACRule sa' = true → precedence sa' > precedence sa →
          env.evalBool (ruleOf sa') v = .ok false) ∧
    (∀ list v, env.listServiceAccounts ns = .ok list → env.jsonify claims = .ok v →
      (∀ sa ∈ list, hasRBACRule sa = true → env.evalBool (ruleOf sa) v = .ok false) →
      getServiceAccount env claims ns = .error "no service account rule matches") := by
  refine ⟨?_, ?_, ?_⟩
  · intro e he
    simp only [getServiceAccount, he]
  · intro list sa hlist hok
    simp only [getServiceAccount, hlist] at hok
    obtain ⟨v, l1, l2, hj, hl, ht, hall⟩ := evalRuleLoop_ok env claims _ sa hok
    have hsamem : sa ∈ List.insertionSort precOrder (list.filter hasRBACRule) := by
      rw [hl]
      simp
    have hsafilter : sa ∈ list.filter hasRBACRule :=
      (List.perm_insertionSort precOrder _).mem_iff.mp hsamem
    refine ⟨(List.mem_filter.mp hsafilter).1, (List.mem_filter.mp hsafilter).2, v, hj, ht, ?_⟩
    intro sa' hsa'l hrule hgt
    have hsa'sorted : sa' ∈ List.insertionSort precOrder (list.filter hasRBACRule) :=
      (List.perm_insertionSort precOrder _).mem_iff.mpr (List.mem_filter.mpr ⟨hsa'l, hrule⟩)
    have hsorted := List.sorted_insertionSort precOrder (list.filter hasRBACRule)
    rw [hl] at hsorted hsa'sorted
    exact hall sa' (higher_prec_mem_left l1 l2 sa sa' hsorted hsa'sorted hgt)
  · intro list v hlist hj hall
    simp only [getServiceAccount, hlist]
    refine evalRuleLoop_all_false env claims v hj _ (fun sa hsa => ?_)
    have hsafilter : sa ∈ list.filter hasRBACRule :=
      (List.perm_insertionSort precOrder _).mem_iff.mp hsa
    exact hall sa (List.mem_filter.mp hsafilter).1 (List.mem_filter.mp hsafilter).2

/-- C3 witness: at the fixture namespace the selector returns the
precedence-1 account, which is listed and rule-bearing. -/
theorem C3_witness :
    mkSA "my-sa" "my-ns" "1" "match" ∈
      [mkSA "my-other-sa" "my-ns" "0" "match2", mkSA "my-sa" "my-ns" "1" "match"] ∧
    hasRBACRule (mkSA "my-sa" "my-ns" "1" "match") = true :=
  ⟨((C3_selector_characterization fxEnv fxClaims "my-ns").2.1 _
      (mkSA "my-sa" "my-ns" "1" "match") rfl rfl).1,
   ((C3_selector_characterization fxEnv fxClaims "my-ns").2.1 _
      (mkSA "my-sa" "my-ns" "1" "match") rfl rfl).2.1⟩

/-- A string has length zero exactly when it is empty. -/
theorem string_length_eq_zero_iff (s : String) : s.length = 0 ↔ s = "" := by
  constructor
  · intro h
    cases s with
    | mk data =>
      cases data with
      | nil => rfl
      | cons c cs => simp [String.length] at h
  · intro h
    subst h
    rfl

/-- C2 (amended): with the login account selected, delegation is permitted
exactly when single-namespace mode is off, the delegation toggle is enabled,
and the requested namespace is non-empty and differs from the identity-home
namespace; the requested-namespace account becomes the delegate exactly when
delegation is permitted and the selector succeeds on the requested namespace
with an account of precedence strictly greater than the login account's; in
every other case the login account stands. -/
theorem C2_delegation_characterization (cfg : GatekeeperCfg) (env : Env) (claims : Claims)
    (ns : String) (loginAccount : ServiceAccount)
    (hlogin : getServiceAccount env claims cfg.ssoNamespace = .ok loginAccount) :
    ((rbacAuthorization cfg env claims ns).1.map (fun a => a.loginServiceAccount) =
      some loginAccount.name) ∧
    (canDelegateRBACToRequestNamespace cfg env ns = true ↔
      (cfg.namespaced = false ∧ env.getenv "SSO_DELEGATE_RBAC_TO_NAMESPACE" = "true" ∧
        ns ≠ "" ∧ cfg.ssoNamespace ≠ ns)) ∧
    ((∃ namespaceAccount, canDelegateRBACToRequestNamespace cfg env ns = true ∧
        getServiceAccount env claims ns = .ok namespaceAccount ∧
        precedence namespaceAccount > precedence loginAccount) →
      ((rbacAuthorization cfg env claims ns).1.map (fun a => a.ssoDelegated) = some true ∧
        ∀ namespaceAccount, getServiceAccount env claims ns = .ok namespaceAccount →
          (rbacAuthorization cfg env claims ns).1.map (fun a => a.serviceAccount) =
            some namespaceAccount.name)) ∧
    ((¬ ∃ namespaceAccount, canDelegateRBACToRequestNamespace cfg env ns = true ∧
        getServiceAccount env claims ns = .ok namespaceAccount ∧
        precedence namespaceAccount > precedence loginAccount) →
      ((rbacAuthorization cfg env claims ns).1.map (fun a => a.ssoDelegated) = some false ∧
        (rbacAuthorization cfg env claims ns).1.map (fun a => a.serviceAccount) =
          some loginAccount.name)) := by
  have hiff : canDelegateRBACToRequestNamespace cfg env ns = true ↔
      (cfg.namespaced = false ∧ env.getenv "SSO_DELEGATE_RBAC_TO_NAMESPACE" = "true" ∧
        ns ≠ "" ∧ cfg.ssoNamespace ≠ ns) := by
    unfold canDelegateRBACToRequestNamespace
    cases hnsp : cfg.namespaced with
    | true => simp [hnsp]
    | false =>
      by_cases hgp : env.getenv "SSO_DELEGATE_RBAC_TO_NAMESPACE" = "true"
      · simp [hgp, Bool.and_eq_true, bne_iff_ne, string_length_eq_zero_iff, ne_comm]
      · simp [hgp, bne_iff_ne]
  refine ⟨?_, hiff, ?_, ?_⟩
  · simp only [rbacAuthorization, hlogin]
    by_cases hcd : canDelegateRBACToRequestNamespace cfg env ns = true
    · simp only [hcd, if_true]
      cases hns : getServiceAccount env claims ns with
      | error e => simp [hns]
      | ok namespaceAccount =>
        by_cases hp : precedence namespaceAccount > precedence loginAccount
        · simp [hns, hp]
        · simp [hns, hp]
    · have hcd' : canDelegateRBACToRequestNamespace cfg env ns = false :=
        Bool.not_eq_true _ ▸ Bool.eq_false_iff.mpr (fun h => hcd h)
      simp [hcd']
  · rintro ⟨namespaceAccount, hcd, hns, hp⟩
    simp only [rbacAuthorization, hlogin, hcd, if_true, hns, hp, if_pos]
    constructor
    · simp
    · intro acct hacct
      injection hacct with he
      subst he
      simp
  · intro hnone
    simp only [rbacAuthorization, hlogin]
    by_cases hcd : canDelegateRBACToRequestNamespace cfg env ns = true
    · simp only [hcd, if_true]
      cases hns : getServiceAccount env claims ns with
      | error e => simp [hns]
      | ok namespaceAccount =>
        by_cases hp : precedence namespaceAccount > precedence loginAccount
        · exact absurd ⟨namespaceAccount, hcd, hns, hp⟩ hnone
        · simp [hns, hp]
    · have hcd' : canDelegateRBACToRequestNamespace cfg env ns = false :=
        Bool.not_eq_true _ ▸ Bool.eq_false_iff.mpr (fun h => hcd h)
      simp [hcd']

/-- C2 witness: the amended theorem at the delegation fixture — the
requested-namespace precedence-2 account is delegated over the precedence-1
login account. -/
theorem C2_witness :
    (rbacAuthorization fxCfg fxEnv fxClaims "user1-ns").1.map (fun a => a.ssoDelegated) =
      some true ∧
    (rbacAuthorization fxCfg fxEnv fxClaims "user1-ns").1.map (fun a => a.serviceAccount) =
      some "user1-sa" := by
  obtain ⟨-, -, hdel, -⟩ := C2_delegation_characterization fxCfg fxEnv fxClaims "user1-ns"
    (mkSA "my-sa" "my-ns" "1" "match") rfl
  have h := hdel ⟨mkSA "user1-sa" "user1-ns" "2" "match", rfl, rfl, by decide⟩
  exact ⟨h.1, h.2 (mkSA "user1-sa" "user1-ns" "2" "match") rfl⟩

/-- C2 counterexample: the claim fails for an empty requested namespace —
every condition the claim lists for delegation holds (single-namespace off,
toggle enabled, requested namespace differs from the identity-home
namespace) and the empty namespace holds a matching account of strictly
greater precedence, yet the identity-home account is selected, because the
code additionally requires the requested namespace to be non-empty. -/
theorem C2_counterexample :
    fxCfg.namespaced = false ∧
    fxEnvC2.getenv "SSO_DELEGATE_RBAC_TO_NAMESPACE" = "true" ∧
    ("" : String) ≠ fxCfg.ssoNamespace ∧
    getServiceAccount fxEnvC2 fxClaims "" = .ok (mkSA "root-sa" "" "5" "match") ∧
    precedence (mkSA "root-sa" "" "5" "match") >
      precedence (mkSA "my-sa" "my-ns" "1" "match") ∧
    getServiceAccount fxEnvC2 fxClaims fxCfg.ssoNamespace =
      .ok (mkSA "my-sa" "my-ns" "1" "match") ∧
    (rbacAuthorization fxCfg fxEnvC2 fxClaims "").1 =
      some { serviceAccount := "my-sa", loginServiceAccount := "my-sa", subject := "my-sub",
             ssoDelegationAllowed := false, ssoDelegated := false } :=
  ⟨rfl, rfl, by decide, rfl, by decide, rfl, rfl⟩

/-- C10: a service account whose precedence annotation is absent or not
syntactically parseable as an integer reads as precedence 0; it therefore
orders strictly below any account of positive precedence in the
descending-precedence comparison, and as the requested-namespace candidate
it can never win the strict-precedence delegation comparison against a
positive-precedence login account. -/
theorem C10_invalid_precedence_defaults_zero (sa other loginAccount : ServiceAccount)
    (cfg : GatekeeperCfg) (env : Env) (claims : Claims) (ns : String)
    (hsa : sa.annotations.lookup AnnotationKeyRBACRulePrecedence = none ∨
      ∃ v, sa.annotations.lookup AnnotationKeyRBACRulePrecedence = some v ∧
        atoiParses v = false) :
    precedence sa = 0 ∧
    (0 < precedence other → precOrder other sa ∧ ¬ precOrder sa other) ∧
    (0 < precedence loginAccount →
      getServiceAccount env claims cfg.ssoNamespace = .ok loginAccount →
      getServiceAccount env claims ns = .ok sa →
      (rbacAuthorization cfg env claims ns).1.map (fun a => a.ssoDelegated) = some false ∧
      (rbacAuthorization cfg env claims ns).1.map (fun a => a.serviceAccount) =
        some loginAccount.name) := by
  have hzero : precedence sa = 0 := by
    rcases hsa with h | ⟨v, hv, hvp⟩
    · simp only [precedence, h, Option.getD]
      rfl
    · simp only [precedence, hv, Option.getD]
      simp [goAtoi, hvp]
  refine ⟨hzero, ?_, ?_⟩
  · intro hpos
    unfold precOrder
    rw [hzero]
    omega
  · intro hpos hlogin hns
    have hnp : ¬ (precedence sa > precedence loginAccount) := by
      rw [hzero]
      omega
    simp only [rbacAuthorization, hlogin]
    by_cases hcd : canDelegateRBACToRequestNamespace cfg env ns = true
    · simp [hcd, hns, hnp]
    · have hcd' : canDelegateRBACToRequestNamespace cfg env ns = false :=
        Bool.not_eq_true _ ▸ Bool.eq_false_iff.mpr (fun h => hcd h)
      simp [hcd']

/-- C10 witness: the theorem at a fixture where the requested namespace's
only match carries the annotation `bogus` and the login account has
precedence 1 — no delegation happens. -/
theorem C10_witness :
    precedence (mkSA "ns-sa" "user1-ns" "bogus" "match") = 0 ∧
    (rbacAuthorization fxCfg fxEnvC10 fxClaims "user1-ns").1.map (fun a => a.ssoDelegated) =
      some false ∧
    (rbacAuthorization fxCfg fxEnvC10 fxClaims "user1-ns").1.map (fun a => a.serviceAccount) =
      some "my-sa" := by
  obtain ⟨h0, -, h2⟩ := C10_invalid_precedence_defaults_zero
    (mkSA "ns-sa" "user1-ns" "bogus" "match") (mkSA "my-sa" "my-ns" "1" "match")
    (mkSA "my-sa" "my-ns" "1" "match") fxCfg fxEnvC10 fxClaims "user1-ns"
    (.inr ⟨"bogus", rfl, rfl⟩)
  have h := h2 (by decide) rfl rfl
  exact ⟨h0, h.1, h.2⟩

end ArgoAuth
